import Mathlib

/-
  Verification of the PDF composition engine of sign-be (src/pdfService.js)
  against its natural-language specification.

  The JavaScript source is shallowly embedded: byte buffers are `List Nat`
  (one entry per byte), JS numbers that carry page geometry are `ℚ`,
  JS strings are `String`, fallible operations return `Option` or `Except`,
  and the external pdf-lib drawing calls are reified as a `DrawOp` datatype
  so that the draw calls issued by the compositor become observable data.
-/

namespace SignBe

/-- Image sub-formats recognized by `detectImageFormat` in src/pdfService.js. -/
inductive ImgFormat
  | jpeg
  | png
  | gif
  | webp
  | bmp
  | tiff
deriving DecidableEq

/-- File categories assigned by the analysis loop of `mergeDocumentsWithFields`
    (src/pdfService.js lines 801-817). -/
inductive FileType
  | pdf
  | doc
  | image
  | unknown
deriving DecidableEq

/-- `isPDF` (src/pdfService.js line 13): the first 4 bytes are the ASCII
    literal percent-P-D-F. -/
def isPDF (buffer : List Nat) : Bool :=
  buffer.take 4 == [0x25, 0x50, 0x44, 0x46]

/-- Substring test on byte lists, modelling the JS `String.prototype.includes`
    used by `isDocx`. -/
def hasSubstr (pat : List Nat) : List Nat → Bool
  | [] => pat.isEmpty
  | a :: rest => pat.isPrefixOf (a :: rest) || hasSubstr pat rest

/-- Byte codes of an ASCII string literal. -/
def strBytes (s : String) : List Nat := s.toList.map Char.toNat

/-- `isDocx` (src/pdfService.js line 33): decode the first 1000 bytes as
    ascii (Node masks each byte to 7 bits) and look for the substrings
    word-slash or the content-types entry name. -/
def isDocx (buffer : List Nat) : Bool :=
  let bufferStr := (buffer.take 1000).map (fun b => b % 128)
  hasSubstr (strBytes "word/") bufferStr ||
    hasSubstr (strBytes "[Content_Types].xml") bufferStr

/-- `isDOC` (src/pdfService.js line 20): OLE2 signature, or ZIP signature
    refined by the DOCX heuristic. -/
def isDOC (buffer : List Nat) : Bool :=
  buffer.take 8 == [0xD0, 0xCF, 0x11, 0xE0, 0xA1, 0xB1, 0x1A, 0xE1] ||
    (buffer.take 4 == [0x50, 0x4B, 0x03, 0x04] && isDocx buffer)

/-- Split a character list at every dot, modelling the JS `split` call in
    `detectFormatByExtension`; the result is never empty. -/
def splitOnDot (cs : List Char) : List (List Char) :=
  cs.foldr
    (fun c acc =>
      match acc with
      | [] => [[]]
      | h :: t => if c = '.' then [] :: h :: t else (c :: h) :: t)
    [[]]

/-- `detectFormatByExtension` (src/pdfService.js lines 97-120): lower-case the
    file name, split on dots, and switch on the last component. -/
def detectFormatByExtension (fileName : String) : Option ImgFormat :=
  if fileName = "" then none
  else
    let ext : List Char := (splitOnDot (fileName.toList.map Char.toLower)).getLastD []
    if ext = "jpg".toList ∨ ext = "jpeg".toList then some ImgFormat.jpeg
    else if ext = "png".toList then some ImgFormat.png
    else if ext = "gif".toList then some ImgFormat.gif
    else if ext = "webp".toList then some ImgFormat.webp
    else if ext = "bmp".toList then some ImgFormat.bmp
    else if ext = "tiff".toList ∨ ext = "tif".toList then some ImgFormat.tiff
    else none

/-- `detectImageFormat` (src/pdfService.js lines 46-92): buffers shorter than
    16 bytes go straight to the extension fallback; otherwise the magic-byte
    signatures are tried in source order, falling back to the extension. -/
def detectImageFormat (buffer : List Nat) (fileName : String) : Option ImgFormat :=
  if buffer.length < 16 then detectFormatByExtension fileName
  else
    let header := buffer.take 16
    if header.take 2 = [0xFF, 0xD8] then some ImgFormat.jpeg
    else if header.take 8 = [0x89, 0x50, 0x4E, 0x47, 0x0D, 0x0A, 0x1A, 0x0A] then
      some ImgFormat.png
    else if header.take 6 = strBytes "GIF87a" ∨ header.take 6 = strBytes "GIF89a" then
      some ImgFormat.gif
    else if header.take 4 = strBytes "RIFF" ∧ (header.drop 8).take 4 = strBytes "WEBP" then
      some ImgFormat.webp
    else if header.take 2 = [0x42, 0x4D] then some ImgFormat.bmp
    else if header.take 4 = [0x49, 0x49, 0x2A, 0x00] then some ImgFormat.tiff
    else if header.take 4 = [0x4D, 0x4D, 0x00, 0x2A] then some ImgFormat.tiff
    else detectFormatByExtension fileName

/-- The classification ladder of the analysis loop in `mergeDocumentsWithFields`
    (src/pdfService.js lines 801-817): PDF first, then DOC, then image, else
    unknown. -/
def classifyFile (buffer : List Nat) (fileName : String) : FileType :=
  if isPDF buffer then FileType.pdf
  else if isDOC buffer then FileType.doc
  else
    match detectImageFormat buffer fileName with
    | some _ => FileType.image
    | none => FileType.unknown

/-- Claim C9: classification is evaluated in a fixed precedence order — a
    percent-PDF buffer is always PDF whatever else it matches; only non-PDF
    buffers are tested against the DOC signatures; only non-PDF non-DOC
    buffers reach the raster-image detector (whose result, including its
    extension fallback, then decides image versus unknown). -/
theorem classifyFile_precedence (buffer : List Nat) (fileName : String) :
    (isPDF buffer = true → classifyFile buffer fileName = FileType.pdf) ∧
    (isPDF buffer = false → isDOC buffer = true →
      classifyFile buffer fileName = FileType.doc) ∧
    (∀ fmt, isPDF buffer = false → isDOC buffer = false →
      detectImageFormat buffer fileName = some fmt →
      classifyFile buffer fileName = FileType.image) ∧
    (isPDF buffer = false → isDOC buffer = false →
      detectImageFormat buffer fileName = none →
      classifyFile buffer fileName = FileType.unknown) := by
  refine ⟨?_, ?_, ?_, ?_⟩
  · intro h; simp [classifyFile, h]
  · intro h1 h2; simp [classifyFile, h1, h2]
  · intro fmt h1 h2 h3; simp [classifyFile, h1, h2, h3]
  · intro h1 h2 h3; simp [classifyFile, h1, h2, h3]

/-- A 16-byte buffer with the ZIP signature and a word-slash marker: a valid
    DOCX heuristic match whose file name nonetheless carries a png extension. -/
def docxNamedPngBuf : List Nat :=
  [0x50, 0x4B, 0x03, 0x04, 0x77, 0x6F, 0x72, 0x64, 0x2F, 0, 0, 0, 0, 0, 0, 0]

/-- Witness for C9 at a concrete overlap: the buffer matches both the DOCX
    heuristic and (via the extension fallback) the image detector, and the
    classifier picks DOC because that predicate is tested first. -/
theorem classifyFile_precedence_witness :
    isPDF docxNamedPngBuf = false ∧
    isDOC docxNamedPngBuf = true ∧
    detectImageFormat docxNamedPngBuf "scan.png" = some ImgFormat.png ∧
    classifyFile docxNamedPngBuf "scan.png" = FileType.doc :=
  ⟨by decide, by decide, by decide,
    (classifyFile_precedence docxNamedPngBuf "scan.png").2.1 (by decide) (by decide)⟩

/-- Claim C10: a buffer shorter than 16 bytes is classified purely by file
    extension — in particular a 2-byte buffer carrying the JPEG magic with an
    unrecognized extension comes back unrecognized. -/
theorem detectImageFormat_short_buffer :
    (∀ (buffer : List Nat) (fileName : String), buffer.length < 16 →
      detectImageFormat buffer fileName = detectFormatByExtension fileName) ∧
    detectImageFormat [0xFF, 0xD8] "sig.raw" = none := by
  constructor
  · intro buffer fileName h
    unfold detectImageFormat
    rw [if_pos h]
  · decide

/-- Witness for C10: the truncated-JPEG buffer is routed to the extension
    fallback. -/
theorem detectImageFormat_short_buffer_witness :
    detectImageFormat [0xFF, 0xD8] "photo" = detectFormatByExtension "photo" :=
  detectImageFormat_short_buffer.1 [0xFF, 0xD8] "photo" (by decide)

/-- The running-total pushes of the merge loop (src/pdfService.js lines
    858-868): starting from an accumulated page total, record one start index
    per successfully processed file. -/
def startIndicesFrom : Nat → List Nat → List Nat
  | _, [] => []
  | total, c :: rest => total :: startIndicesFrom (total + c) rest

/-- `filePageStartIndices` as accumulated by the merge loop, from the page
    counts of the processed files in order. -/
def filePageStartIndices (counts : List Nat) : List Nat :=
  startIndicesFrom 0 counts

/-- The page map built at src/pdfService.js lines 883-890: the key
    (fileIdx, pageNum) is present exactly for fileIdx below the number of
    merged files and pageNum between 1 and that file page count, and maps to
    startIndex plus pageNum minus one. -/
def filePageToGlobalPage (counts : List Nat) (fileIdx pageNum : Nat) : Option Nat :=
  match (filePageStartIndices counts).get? fileIdx, counts.get? fileIdx with
  | some s, some c => if 1 ≤ pageNum ∧ pageNum ≤ c then some (s + (pageNum - 1)) else none
  | _, _ => none

theorem startIndicesFrom_length (t : Nat) (counts : List Nat) :
    (startIndicesFrom t counts).length = counts.length := by
  induction counts generalizing t with
  | nil => rfl
  | cons c rest ih => simp [startIndicesFrom, ih]

theorem startIndicesFrom_get? :
    ∀ (counts : List Nat) (t f : Nat), f < counts.length →
      (startIndicesFrom t counts).get? f = some (t + (counts.take f).sum)
  | [], _, f, h => absurd h (by simp)
  | c :: rest, t, 0, _ => by simp [startIndicesFrom]
  | c :: rest, t, f + 1, h => by
    have ih := startIndicesFrom_get? rest (t + c) f (by simpa using h)
    simp only [startIndicesFrom, List.get?_cons_succ, List.take_succ_cons, List.sum_cons, ih]
    congr 1
    omega

theorem filePageToGlobalPage_eq_some {counts : List Nat} {f p g : Nat} :
    filePageToGlobalPage counts f p = some g ↔
      f < counts.length ∧ 1 ≤ p ∧ p ≤ counts.getD f 0 ∧
        g = (counts.take f).sum + (p - 1) := by
  unfold filePageToGlobalPage filePageStartIndices
  by_cases hf : f < counts.length
  · obtain ⟨a, hc⟩ : ∃ a, counts.get? f = some a := by
      cases hcc : counts.get? f with
      | none => exact absurd (List.get?_eq_none.mp hcc) (by omega)
      | some a => exact ⟨a, rfl⟩
    have hgd : counts.getD f 0 = a := by
      rw [List.getD_eq_getElem?_getD, ← List.get?_eq_getElem?, hc]
      rfl
    rw [startIndicesFrom_get? counts 0 f hf, hc, hgd]
    show (if 1 ≤ p ∧ p ≤ a then some (0 + (counts.take f).sum + (p - 1)) else none) = some g ↔
      f < counts.length ∧ 1 ≤ p ∧ p ≤ a ∧ g = (counts.take f).sum + (p - 1)
    split_ifs with hp
    · simp only [Option.some.injEq]
      constructor
      · intro h; exact ⟨hf, hp.1, hp.2, by omega⟩
      · intro h; omega
    · constructor
      · intro h; exact absurd h (by simp)
      · intro h; exact absurd ⟨h.2.1, h.2.2.1⟩ hp
  · have h1 : (startIndicesFrom 0 counts).get? f = none := by
      rw [List.get?_eq_none, startIndicesFrom_length]; omega
    have h2 : counts.get? f = none := by rw [List.get?_eq_none]; omega
    rw [h1, h2]
    simp [hf]

theorem take_sum_succ :
    ∀ (l : List Nat) (f : Nat), f < l.length →
      (l.take (f + 1)).sum = (l.take f).sum + l.getD f 0
  | [], f, h => absurd h (by simp)
  | c :: rest, 0, _ => by simp
  | c :: rest, f + 1, h => by
    have ih := take_sum_succ rest f (by simpa using h)
    simp only [List.take_succ_cons, List.sum_cons, List.getD_cons_succ, ih]
    omega

theorem sum_take_mono :
    ∀ (l : List Nat) (i j : Nat), i ≤ j → (l.take i).sum ≤ (l.take j).sum
  | [], _, _, _ => by simp
  | _ :: _, 0, _, _ => by simp
  | c :: rest, i + 1, j + 1, h => by
    have := sum_take_mono rest i j (by omega)
    simp only [List.take_succ_cons, List.sum_cons]
    omega
  | _ :: _, i + 1, 0, h => absurd h (by omega)

theorem pageMap_mono {counts : List Nat} {f p f' p' g g' : Nat}
    (h : filePageToGlobalPage counts f p = some g)
    (h' : filePageToGlobalPage counts f' p' = some g')
    (hlt : f < f' ∨ (f = f' ∧ p < p')) : g < g' := by
  rw [filePageToGlobalPage_eq_some] at h h'
  obtain ⟨hf, hp1, hp2, hg⟩ := h
  obtain ⟨hf', hp1', hp2', hg'⟩ := h'
  rcases hlt with hff | ⟨rfl, hpp⟩
  · have e1 := take_sum_succ counts f hf
    have e2 := sum_take_mono counts (f + 1) f' (by omega)
    omega
  · omega

theorem pageMap_surj :
    ∀ (counts : List Nat) (g : Nat), g < counts.sum →
      ∃ f p, filePageToGlobalPage counts f p = some g
  | [], g, h => absurd h (by simp)
  | c :: rest, g, h => by
    by_cases hg : g < c
    · refine ⟨0, g + 1, ?_⟩
      rw [filePageToGlobalPage_eq_some]
      refine ⟨by simp, by omega, by simpa using hg, by simp⟩
    · have hsum : g - c < rest.sum := by
        simp only [List.sum_cons] at h; omega
      obtain ⟨f, p, hfp⟩ := pageMap_surj rest (g - c) hsum
      rw [filePageToGlobalPage_eq_some] at hfp
      obtain ⟨hf, hp1, hp2, hgeq⟩ := hfp
      refine ⟨f + 1, p, ?_⟩
      rw [filePageToGlobalPage_eq_some]
      refine ⟨by simpa using Nat.succ_lt_succ hf, hp1, by simpa using hp2, ?_⟩
      simp only [List.take_succ_cons, List.sum_cons]
      omega

/-- Claim C1: the page map sends (fileIdx f, pageNum p) with p between 1 and
    the page count of file f to startIndex f plus p minus 1, where
    startIndex f is the sum of the earlier page counts; the map is injective,
    its range is exactly the interval from 0 to the total page count minus
    one, and global indices strictly increase with file order and, within a
    file, with page order. -/
theorem filePageToGlobalPage_spec (counts : List Nat) :
    (∀ f p, f < counts.length → 1 ≤ p → p ≤ counts.getD f 0 →
      filePageToGlobalPage counts f p = some ((counts.take f).sum + (p - 1))) ∧
    (∀ f p f' p' g g', filePageToGlobalPage counts f p = some g →
      filePageToGlobalPage counts f' p' = some g' →
      (f < f' ∨ (f = f' ∧ p < p')) → g < g') ∧
    (∀ f p f' p' g g', filePageToGlobalPage counts f p = some g →
      filePageToGlobalPage counts f' p' = some g' → (f, p) ≠ (f', p') → g ≠ g') ∧
    (∀ g, (∃ f p, filePageToGlobalPage counts f p = some g) ↔ g < counts.sum) := by
  refine ⟨?_, ?_, ?_, ?_⟩
  · intro f p hf hp1 hp2
    rw [filePageToGlobalPage_eq_some]
    exact ⟨hf, hp1, hp2, rfl⟩
  · intro f p f' p' g g' h h' hlt
    exact pageMap_mono h h' hlt
  · intro f p f' p' g g' h h' hne
    rcases Nat.lt_trichotomy f f' with hff | hff | hff
    · exact Nat.ne_of_lt (pageMap_mono h h' (Or.inl hff))
    · subst hff
      rcases Nat.lt_trichotomy p p' with hpp | hpp | hpp
      · exact Nat.ne_of_lt (pageMap_mono h h' (Or.inr ⟨rfl, hpp⟩))
      · exact absurd (by rw [hpp]) hne
      · exact (Nat.ne_of_lt (pageMap_mono h' h (Or.inr ⟨rfl, hpp⟩))).symm
    · exact (Nat.ne_of_lt (pageMap_mono h' h (Or.inl hff))).symm
  · intro g
    constructor
    · rintro ⟨f, p, hfp⟩
      rw [filePageToGlobalPage_eq_some] at hfp
      obtain ⟨hf, hp1, hp2, hg⟩ := hfp
      have e1 := take_sum_succ counts f hf
      have e2 := sum_take_mono counts (f + 1) counts.length (by omega)
      rw [List.take_length] at e2
      omega
    · exact pageMap_surj counts g

/-- Witness for C1 on page counts [2, 3]: file 1 page 2 lands on global index
    3, the formula value. -/
theorem filePageToGlobalPage_spec_witness :
    filePageToGlobalPage [2, 3] 1 2 = some 3 := by
  have h := (filePageToGlobalPage_spec [2, 3]).1 1 2 (by decide) (by decide) (by decide)
  simpa using h

/-- A resolved field box in bottom-left-origin PDF point space. -/
structure Box where
  x : ℚ
  y : ℚ
  width : ℚ
  height : ℚ
deriving DecidableEq

/-- The stored position of a field: the percentage form is taken when
    leftPercent and topPercent are defined, else the legacy pixel form when
    x and y are defined, else the field has no valid coordinates
    (src/pdfService.js lines 930-967). -/
inductive FieldPos
  | percent (leftPercent topPercent widthPercent heightPercent : ℚ)
  | pixel (x y width height : ℚ) (originalWidth originalHeight : Option ℚ)
  | missing
deriving DecidableEq

/-- JS short-circuit-or on an optional number: an absent or zero value falls
    back to the default (used for originalWidth and originalHeight). -/
def jsOrQ (o : Option ℚ) (d : ℚ) : ℚ :=
  match o with
  | some v => if v = 0 then d else v
  | none => d

/-- The percentage-coordinate computation (src/pdfService.js lines 930-942):
    scale the percentages by the page size and flip the top-left origin to
    the PDF bottom-left origin. -/
def percentBox (leftPercent topPercent widthPercent heightPercent pageWidth pageHeight : ℚ) :
    Box :=
  let width := widthPercent / 100 * pageWidth
  let height := heightPercent / 100 * pageHeight
  let x := leftPercent / 100 * pageWidth
  let topY := topPercent / 100 * pageHeight
  { x := x, y := pageHeight - topY - height, width := width, height := height }

/-- The legacy pixel-coordinate computation (src/pdfService.js lines
    944-962): scale by page over original dimensions and flip the origin. -/
def pixelBox (fx fy fw fh : ℚ) (ow oh : Option ℚ) (pageWidth pageHeight : ℚ) : Box :=
  let originalWidth := jsOrQ ow pageWidth
  let originalHeight := jsOrQ oh pageHeight
  let scaleX := pageWidth / originalWidth
  let scaleY := pageHeight / originalHeight
  { x := fx * scaleX
    y := pageHeight - fy * scaleY - fh * scaleY
    width := fw * scaleX
    height := fh * scaleY }

/-- The bounds check and clamp applied after coordinate resolution
    (src/pdfService.js lines 969-987): an in-bounds box passes through; an
    out-of-bounds box has x and y clamped first and width and height shrunk
    against the clamped corner. -/
def clampIfOut (b : Box) (pageWidth pageHeight : ℚ) : Box :=
  if b.x < 0 ∨ b.y < 0 ∨ b.x + b.width > pageWidth ∨ b.y + b.height > pageHeight then
    let x := max 0 (min b.x (pageWidth - b.width))
    let y := max 0 (min b.y (pageHeight - b.height))
    { x := x, y := y, width := min b.width (pageWidth - x), height := min b.height (pageHeight - y) }
  else b

/-- The coordinate resolver: percentage form, else pixel form, else no valid
    coordinates (the only rejection), each followed by the clamp. -/
def resolveBox (pos : FieldPos) (pageWidth pageHeight : ℚ) : Option Box :=
  match pos with
  | FieldPos.percent l t w h =>
    some (clampIfOut (percentBox l t w h pageWidth pageHeight) pageWidth pageHeight)
  | FieldPos.pixel fx fy fw fh ow oh =>
    some (clampIfOut (pixelBox fx fy fw fh ow oh pageWidth pageHeight) pageWidth pageHeight)
  | FieldPos.missing => none

theorem clampIfOut_bounds (b : Box) (pageWidth pageHeight : ℚ) :
    0 ≤ (clampIfOut b pageWidth pageHeight).x ∧
    0 ≤ (clampIfOut b pageWidth pageHeight).y ∧
    (clampIfOut b pageWidth pageHeight).x + (clampIfOut b pageWidth pageHeight).width ≤
      pageWidth ∧
    (clampIfOut b pageWidth pageHeight).y + (clampIfOut b pageWidth pageHeight).height ≤
      pageHeight := by
  unfold clampIfOut
  split_ifs with hcond
  · refine ⟨le_max_left _ _, le_max_left _ _, ?_, ?_⟩
    · have h1 : min b.width (pageWidth - max 0 (min b.x (pageWidth - b.width))) ≤
          pageWidth - max 0 (min b.x (pageWidth - b.width)) := min_le_right _ _
      simp only
      linarith
    · have h1 : min b.height (pageHeight - max 0 (min b.y (pageHeight - b.height))) ≤
          pageHeight - max 0 (min b.y (pageHeight - b.height)) := min_le_right _ _
      simp only
      linarith
  · push_neg at hcond
    exact ⟨hcond.1, hcond.2.1, hcond.2.2.1, hcond.2.2.2⟩

theorem clampIfOut_id (b : Box) (pageWidth pageHeight : ℚ)
    (h1 : 0 ≤ b.x) (h2 : 0 ≤ b.y) (h3 : b.x + b.width ≤ pageWidth)
    (h4 : b.y + b.height ≤ pageHeight) :
    clampIfOut b pageWidth pageHeight = b := by
  have hcond : ¬(b.x < 0 ∨ b.y < 0 ∨ b.x + b.width > pageWidth ∨
      b.y + b.height > pageHeight) := by
    push_neg
    exact ⟨h1, h2, h3, h4⟩
  simp [clampIfOut, hcond]

/-- Claim C4: a box already inside the page passes the clamp unchanged; every
    box that the resolver returns satisfies the four page-bound inequalities
    (so an out-of-bounds box is clamped into range, never an error); and the
    resolver rejects a field exactly when it has neither percentage nor pixel
    coordinates. -/
theorem resolveBox_clamp_spec (pageWidth pageHeight : ℚ) :
    (∀ b : Box, 0 ≤ b.x → 0 ≤ b.y → b.x + b.width ≤ pageWidth →
      b.y + b.height ≤ pageHeight → clampIfOut b pageWidth pageHeight = b) ∧
    (∀ pos b, resolveBox pos pageWidth pageHeight = some b →
      0 ≤ b.x ∧ 0 ≤ b.y ∧ b.x + b.width ≤ pageWidth ∧ b.y + b.height ≤ pageHeight) ∧
    (∀ pos, resolveBox pos pageWidth pageHeight = none ↔ pos = FieldPos.missing) := by
  refine ⟨fun b => clampIfOut_id b pageWidth pageHeight, ?_, ?_⟩
  · intro pos b hb
    cases pos with
    | percent l t w h =>
      simp only [resolveBox, Option.some.injEq] at hb
      rw [← hb]
      exact clampIfOut_bounds _ _ _
    | pixel fx fy fw fh ow oh =>
      simp only [resolveBox, Option.some.injEq] at hb
      rw [← hb]
      exact clampIfOut_bounds _ _ _
    | missing => simp [resolveBox] at hb
  · intro pos
    cases pos <;> simp [resolveBox]

/-- Witness for C4: an in-bounds box on a 600 by 800 page is returned
    unchanged by the clamp. -/
theorem resolveBox_clamp_spec_witness :
    clampIfOut (Box.mk 10 20 50 60) 600 800 = Box.mk 10 20 50 60 :=
  (resolveBox_clamp_spec 600 800).1 (Box.mk 10 20 50 60)
    (by norm_num) (by norm_num) (by norm_num) (by norm_num)

/-- Claim C2: for a positive page and percentages, the percentage computation
    satisfies the stated formulas, the recovered top edge pageHeight - y -
    height equals topPercent over 100 times pageHeight, and x + width equals
    (leftPercent + widthPercent) over 100 times pageWidth. -/
theorem percentBox_roundTrip (pageWidth pageHeight L T Wp Hp : ℚ)
    (hW : 0 < pageWidth) (hH : 0 < pageHeight)
    (hL0 : 0 ≤ L) (hL1 : L ≤ 100) (hT0 : 0 ≤ T) (hT1 : T ≤ 100)
    (hWp0 : 0 ≤ Wp) (hWp1 : Wp ≤ 100) (hHp0 : 0 ≤ Hp) (hHp1 : Hp ≤ 100) :
    (percentBox L T Wp Hp pageWidth pageHeight).x = L / 100 * pageWidth ∧
    (percentBox L T Wp Hp pageWidth pageHeight).width = Wp / 100 * pageWidth ∧
    (percentBox L T Wp Hp pageWidth pageHeight).height = Hp / 100 * pageHeight ∧
    (percentBox L T Wp Hp pageWidth pageHeight).y =
      pageHeight - T / 100 * pageHeight -
        (percentBox L T Wp Hp pageWidth pageHeight).height ∧
    pageHeight - (percentBox L T Wp Hp pageWidth pageHeight).y -
        (percentBox L T Wp Hp pageWidth pageHeight).height =
      T / 100 * pageHeight ∧
    (percentBox L T Wp Hp pageWidth pageHeight).x +
        (percentBox L T Wp Hp pageWidth pageHeight).width =
      (L + Wp) / 100 * pageWidth ∧
    (L + Wp ≤ 100 → T + Hp ≤ 100 →
      resolveBox (FieldPos.percent L T Wp Hp) pageWidth pageHeight =
        some (percentBox L T Wp Hp pageWidth pageHeight)) := by
  refine ⟨rfl, rfl, rfl, rfl, by simp only [percentBox]; ring,
    by simp only [percentBox]; ring, ?_⟩
  intro hLW hTH
  have hx : 0 ≤ (percentBox L T Wp Hp pageWidth pageHeight).x :=
    mul_nonneg (div_nonneg hL0 (by norm_num)) hW.le
  have hy : 0 ≤ (percentBox L T Wp Hp pageWidth pageHeight).y := by
    have e : T / 100 * pageHeight + Hp / 100 * pageHeight =
        (T + Hp) / 100 * pageHeight := by ring
    have d : (T + Hp) / 100 ≤ 1 := by linarith
    have hle : (T + Hp) / 100 * pageHeight ≤ 1 * pageHeight :=
      mul_le_mul_of_nonneg_right d hH.le
    show 0 ≤ pageHeight - T / 100 * pageHeight - Hp / 100 * pageHeight
    linarith [one_mul pageHeight]
  have hxw : (percentBox L T Wp Hp pageWidth pageHeight).x +
      (percentBox L T Wp Hp pageWidth pageHeight).width ≤ pageWidth := by
    have e : L / 100 * pageWidth + Wp / 100 * pageWidth =
        (L + Wp) / 100 * pageWidth := by ring
    have d : (L + Wp) / 100 ≤ 1 := by linarith
    have hle : (L + Wp) / 100 * pageWidth ≤ 1 * pageWidth :=
      mul_le_mul_of_nonneg_right d hW.le
    show L / 100 * pageWidth + Wp / 100 * pageWidth ≤ pageWidth
    linarith [one_mul pageWidth]
  have hyh : (percentBox L T Wp Hp pageWidth pageHeight).y +
      (percentBox L T Wp Hp pageWidth pageHeight).height ≤ pageHeight := by
    have ht : 0 ≤ T / 100 * pageHeight :=
      mul_nonneg (div_nonneg hT0 (by norm_num)) hH.le
    show pageHeight - T / 100 * pageHeight - Hp / 100 * pageHeight +
        Hp / 100 * pageHeight ≤ pageHeight
    linarith
  simp only [resolveBox, Option.some.injEq]
  exact clampIfOut_id _ _ _ hx hy hxw hyh

/-- Witness for C2 at a 600 by 800 page with percentages 10, 20, 30, 5. -/
theorem percentBox_roundTrip_witness :
    (percentBox 10 20 30 5 600 800).x = 10 / 100 * 600 ∧
    (percentBox 10 20 30 5 600 800).width = 30 / 100 * 600 ∧
    (percentBox 10 20 30 5 600 800).height = 5 / 100 * 800 ∧
    (percentBox 10 20 30 5 600 800).y =
      800 - 20 / 100 * 800 - (percentBox 10 20 30 5 600 800).height ∧
    800 - (percentBox 10 20 30 5 600 800).y - (percentBox 10 20 30 5 600 800).height =
      20 / 100 * 800 ∧
    (percentBox 10 20 30 5 600 800).x + (percentBox 10 20 30 5 600 800).width =
      (10 + 30) / 100 * 600 ∧
    resolveBox (FieldPos.percent 10 20 30 5) 600 800 =
      some (percentBox 10 20 30 5 600 800) :=
  have h := percentBox_roundTrip 600 800 10 20 30 5 (by norm_num) (by norm_num)
    (by norm_num) (by norm_num) (by norm_num) (by norm_num) (by norm_num) (by norm_num)
    (by norm_num) (by norm_num)
  ⟨h.1, h.2.1, h.2.2.1, h.2.2.2.1, h.2.2.2.2.1, h.2.2.2.2.2.1,
    h.2.2.2.2.2.2 (by norm_num) (by norm_num)⟩

/-- A JS field value as stored in signer fieldValues: a boolean, a string, or
    undefined (absent key). -/
inductive JSValue
  | bool (b : Bool)
  | str (s : String)
  | undef
deriving DecidableEq

/-- JS truthiness for the values a field can carry. -/
def jsTruthy : JSValue → Bool
  | JSValue.bool b => b
  | JSValue.str s => !(s == "")
  | JSValue.undef => false

/-- JS toString on a field value. -/
def jsToString : JSValue → String
  | JSValue.bool true => "true"
  | JSValue.bool false => "false"
  | JSValue.str s => s
  | JSValue.undef => "undefined"

/-- JS String.prototype.startsWith, used for the data-URI test. -/
def jsStartsWith (pre s : String) : Bool :=
  pre.toList.isPrefixOf s.toList

/-- One drawing call issued to pdf-lib: a drawText call (value, x, y, font
    size, optional maxWidth) or a drawImage call (x, y, width, height). -/
inductive DrawOp
  | text (value : String) (x y size : ℚ) (maxWidth : Option ℚ)
  | image (x y width height : ℚ)
deriving DecidableEq

/-- The text-field drawText call (src/pdfService.js lines 997-1007): font
    size clamped between 8 and 14 at 60 percent of the box height, drawn
    2 points in from the left at the vertical center of the box. -/
def renderTextDraw (value : String) (b : Box) : DrawOp :=
  let fontSize := max 8 (min (b.height * (6 / 10)) 14)
  DrawOp.text value (b.x + 2) (b.y + b.height / 2 - fontSize / 2) fontSize (some (b.width - 4))

/-- The checked-checkbox drawText call (src/pdfService.js lines 1012-1021):
    an X glyph sized to 80 percent of the smaller box side, centered in the
    box. -/
def checkboxMark (b : Box) : DrawOp :=
  let checkSize := min b.width b.height * (8 / 10)
  DrawOp.text "X" (b.x + (b.width - checkSize) / 2) (b.y + (b.height - checkSize) / 2)
    checkSize none

/-- The type switch of the field compositor (src/pdfService.js lines
    992-1068). The embed oracle stands for the external base64 decode plus
    pdf-lib image embedding, which either yields an embeddable image or
    throws. A non-string value reaching the signature branch raises a
    TypeError in the source; the model returns none there and no theorem
    relies on that case. -/
def renderFieldValue (embed : String → Option Unit) (ftype : String) (v : JSValue)
    (b : Box) : Option DrawOp :=
  if ftype = "text" ∨ ftype = "name" ∨ ftype = "email" ∨ ftype = "phone" ∨ ftype = "date" then
    some (renderTextDraw (jsToString v) b)
  else if ftype = "checkbox" then
    if v = JSValue.bool true ∨ v = JSValue.str "true" then some (checkboxMark b)
    else none
  else if ftype = "signature" ∨ ftype = "initial" then
    match v with
    | JSValue.str s =>
      if jsStartsWith "data:image/" s then
        match embed s with
        | some _ => some (DrawOp.image b.x b.y b.width b.height)
        | none =>
          some (DrawOp.text (if ftype = "initial" then "Initialed" else "Signed")
            (b.x + 2) (b.y + b.height / 2) (min (b.height * (6 / 10)) 12) none)
      else if s = "" then none
      else some (renderTextDraw s b)
    | _ => none
  else none

/-- The value guard of the field loop (src/pdfService.js line 912, skip falsy
    or empty-string values) composed with the type switch: what the
    compositor draws for one field value in one resolved box. -/
def compositeValueDraw (embed : String → Option Unit) (ftype : String) (v : JSValue)
    (b : Box) : Option DrawOp :=
  if jsTruthy v = false ∨ v = JSValue.str "" then none
  else renderFieldValue embed ftype v b

/-- Claim C5: a checkbox draws the centered X mark sized to 80 percent of the
    smaller box side exactly when the value is boolean true or the string
    true; boolean false, the string false, undefined and the empty string
    each draw nothing. -/
theorem checkbox_semantics (embed : String → Option Unit) (v : JSValue) (b : Box) :
    (compositeValueDraw embed "checkbox" v b = some (checkboxMark b) ↔
      v = JSValue.bool true ∨ v = JSValue.str "true") ∧
    compositeValueDraw embed "checkbox" (JSValue.bool false) b = none ∧
    compositeValueDraw embed "checkbox" (JSValue.str "false") b = none ∧
    compositeValueDraw embed "checkbox" JSValue.undef b = none ∧
    compositeValueDraw embed "checkbox" (JSValue.str "") b = none := by
  refine ⟨?_, ?_, ?_, ?_, ?_⟩
  · cases v with
    | bool bv =>
      cases bv <;> simp [compositeValueDraw, renderFieldValue, jsTruthy]
    | str s =>
      by_cases hs : s = ""
      · subst hs
        simp [compositeValueDraw, jsTruthy]
      · by_cases ht : s = "true"
        · subst ht
          simp [compositeValueDraw, renderFieldValue, jsTruthy]
        · simp [compositeValueDraw, renderFieldValue, jsTruthy, hs, ht]
    | undef => simp [compositeValueDraw, jsTruthy]
  · simp [compositeValueDraw, jsTruthy]
  · simp [compositeValueDraw, renderFieldValue, jsTruthy]
  · simp [compositeValueDraw, jsTruthy]
  · simp [compositeValueDraw, jsTruthy]

/-- Witness for C5: boolean true on a concrete box draws the mark. -/
theorem checkbox_semantics_witness :
    compositeValueDraw (fun _ => none) "checkbox" (JSValue.bool true) (Box.mk 0 0 40 20) =
      some (checkboxMark (Box.mk 0 0 40 20)) :=
  ((checkbox_semantics (fun _ => none) (JSValue.bool true) (Box.mk 0 0 40 20)).1).mpr
    (Or.inl rfl)

/-- Claim C6: for signature and initial fields, a data-URI value whose decode
    or embed fails falls back to the literal Signed (or Initialed) text; a
    value that embeds successfully is drawn as an image filling the box
    exactly; and a non-empty plain-text value is drawn identically to the
    text-field rendering rule. -/
theorem signature_fallback_spec (embed : String → Option Unit) (s : String) (b : Box) :
    (jsStartsWith "data:image/" s = true → embed s = none →
      compositeValueDraw embed "signature" (JSValue.str s) b =
        some (DrawOp.text "Signed" (b.x + 2) (b.y + b.height / 2)
          (min (b.height * (6 / 10)) 12) none) ∧
      compositeValueDraw embed "initial" (JSValue.str s) b =
        some (DrawOp.text "Initialed" (b.x + 2) (b.y + b.height / 2)
          (min (b.height * (6 / 10)) 12) none)) ∧
    (jsStartsWith "data:image/" s = true → ∀ u, embed s = some u →
      compositeValueDraw embed "signature" (JSValue.str s) b =
        some (DrawOp.image b.x b.y b.width b.height) ∧
      compositeValueDraw embed "initial" (JSValue.str s) b =
        some (DrawOp.image b.x b.y b.width b.height)) ∧
    (jsStartsWith "data:image/" s = false → s ≠ "" →
      compositeValueDraw embed "signature" (JSValue.str s) b =
        some (renderTextDraw s b) ∧
      compositeValueDraw embed "signature" (JSValue.str s) b =
        compositeValueDraw embed "text" (JSValue.str s) b) := by
  have hne : jsStartsWith "data:image/" s = true → s ≠ "" := by
    intro h he
    subst he
    simp [jsStartsWith] at h
  refine ⟨?_, ?_, ?_⟩
  · intro hpre hemb
    constructor <;>
      simp [compositeValueDraw, renderFieldValue, jsTruthy, hne hpre, hpre, hemb]
  · intro hpre u hemb
    constructor <;>
      simp [compositeValueDraw, renderFieldValue, jsTruthy, hne hpre, hpre, hemb]
  · intro hpre hs
    constructor <;>
      simp [compositeValueDraw, renderFieldValue, jsTruthy, jsToString, hpre, hs]

/-- Witness for C6: a malformed data-URI on a signature field (every embed
    attempt fails) draws the literal Signed fallback. -/
theorem signature_fallback_spec_witness :
    compositeValueDraw (fun _ => none) "signature"
        (JSValue.str "data:image/png;base64,@@corrupt@@") (Box.mk 5 5 120 40) =
      some (DrawOp.text "Signed" (5 + 2) (5 + 40 / 2) (min (40 * (6 / 10)) 12) none) := by
  have h := ((signature_fallback_spec (fun _ => none)
      "data:image/png;base64,@@corrupt@@" (Box.mk 5 5 120 40)).1 (by decide) rfl).1
  simpa using h

/-- A positioned typed field as read during composition: id, type string,
    1-based page number within its owning file (absent defaults to 1), and
    stored position. -/
structure Field where
  id : String
  type : String
  pageNumber : Option Nat
  pos : FieldPos
deriving DecidableEq

/-- A signer: email, signed flag, and the submitted field values keyed by
    field id. -/
structure Signer where
  email : String
  signed : Bool
  fieldValues : List (String × JSValue)
deriving DecidableEq

/-- One input file of a document as seen by `mergeDocumentsWithFields`:
    the storage download either yields the raw bytes or throws (none); the
    loadOk flag stands for the external conversion-and-load step of stage 2
    succeeding; pageSizes are the page dimensions of the resulting PDF. -/
structure SrcFile where
  fileName : String
  download : Option (List Nat)
  loadOk : Bool
  pageSizes : List (ℚ × ℚ)
  fields : List Field
deriving DecidableEq

/-- The document shape consumed by the composition entry points (the
    multi-file form with documentData.files populated). -/
structure DocumentData where
  title : Option String
  originalName : Option String
  files : List SrcFile
deriving DecidableEq

/-- JS short-circuit-or on an optional natural (pageNumber defaulting: 0 and
    absent both fall back). -/
def jsOrNat (o : Option Nat) (d : Nat) : Nat :=
  match o with
  | some n => if n = 0 then d else n
  | none => d

/-- JS short-circuit-or on an optional string (empty and absent both fall
    back), used for the document title chain. -/
def jsOrElse (o : Option String) (d : String) : String :=
  match o with
  | some s => if s = "" then d else s
  | none => d

/-- Lookup of signerData.fieldValues at a field id; an absent key is JS
    undefined. -/
def lookupValue (kvs : List (String × JSValue)) (k : String) : JSValue :=
  match kvs.find? (fun kv => kv.1 == k) with
  | some kv => kv.2
  | none => JSValue.undef

/-- Stage 1 of `mergeDocumentsWithFields` (src/pdfService.js lines 791-829)
    for one file: keep it when the download succeeds and the classifier does
    not come back unknown. -/
def analyzeKeep (f : SrcFile) : Bool :=
  match f.download with
  | none => false
  | some buf =>
    match classifyFile buf f.fileName with
    | FileType.unknown => false
    | _ => true

/-- The files array paired with original indices, as in the forEach loops of
    the source. -/
def enumFiles : Nat → List SrcFile → List (Nat × SrcFile)
  | _, [] => []
  | i, f :: rest => (i, f) :: enumFiles (i + 1) rest

/-- allFields collection (src/pdfService.js lines 897-908): every field of
    every file of the document, tagged with its original file index. -/
def collectFields : List (Nat × SrcFile) → List (Nat × Field)
  | [] => []
  | (i, f) :: rest => f.fields.map (fun fld => (i, fld)) ++ collectFields rest

/-- The inner field loop of the compositor (src/pdfService.js lines
    910-1069) for one signer: skip falsy or empty values, resolve the global
    page through the page map (skipping unresolvable fields), look up the
    page size, resolve coordinates (skipping fields without any), and emit
    the draw call of the type switch. -/
def compositeFields (embed : String → Option Unit) (pageMap : Nat → Nat → Option Nat)
    (sizes : List (ℚ × ℚ)) (s : Signer) : List (Nat × Field) → List (Nat × DrawOp)
  | [] => []
  | (fi, fld) :: rest =>
    let rest' := compositeFields embed pageMap sizes s rest
    let v := lookupValue s.fieldValues fld.id
    if jsTruthy v = false ∨ v = JSValue.str "" then rest'
    else
      match pageMap fi (jsOrNat fld.pageNumber 1) with
      | none => rest'
      | some g =>
        match sizes.get? g with
        | none => rest'
        | some wh =>
          match resolveBox fld.pos wh.1 wh.2 with
          | none => rest'
          | some b =>
            match renderFieldValue embed fld.type v b with
            | none => rest'
            | some op => (g, op) :: rest'

/-- One signer pass of the compositor: only signers with the signed flag
    contribute draw calls. -/
def compositeSigner (embed : String → Option Unit) (pageMap : Nat → Nat → Option Nat)
    (sizes : List (ℚ × ℚ)) (allFields : List (Nat × Field)) (s : Signer) :
    List (Nat × DrawOp) :=
  if s.signed then compositeFields embed pageMap sizes s allFields else []

/-- All signer passes in order. -/
def compositeAll (embed : String → Option Unit) (pageMap : Nat → Nat → Option Nat)
    (sizes : List (ℚ × ℚ)) (allFields : List (Nat × Field)) :
    List Signer → List (Nat × DrawOp)
  | [] => []
  | s :: rest =>
    compositeSigner embed pageMap sizes allFields s ++
      compositeAll embed pageMap sizes allFields rest

/-- The observable outcome of a merge run: the provenance of each output
    page as (original file index, page number within that file), the page
    sizes of the merged document in order, and every draw call issued by the
    compositor tagged with its global page index. -/
structure MergeOut where
  pages : List (Nat × Nat)
  pageSizes : List (ℚ × ℚ)
  draws : List (Nat × DrawOp)
deriving DecidableEq

/-- The body of `mergeDocumentsWithFields` (src/pdfService.js lines
    776-1083): stage 1 keeps downloadable, classifiable files; the run fails
    when none survive; stage 2 keeps the files whose conversion and load
    succeed and the run fails when they contribute zero pages; the page map
    is keyed by position in the stage-2 list; fields come from all files of
    the document with their original indices. -/
def mergeCore (embed : String → Option Unit) (doc : DocumentData)
    (signers : List Signer) : Except String MergeOut :=
  let processed := (enumFiles 0 doc.files).filter (fun p => analyzeKeep p.2)
  if processed.isEmpty then
    Except.error
      "No supported files found. Supported formats: PDF, DOC/DOCX, JPEG, PNG, GIF, WebP, BMP, TIFF"
  else
    let success := processed.filter (fun p => p.2.loadOk)
    let counts := success.map (fun p => p.2.pageSizes.length)
    if counts.sum = 0 then
      Except.error
        "No valid pages found after processing all files. Please check file formats and try again."
    else
      let pageMap := filePageToGlobalPage counts
      let sizes := (success.map (fun p => p.2.pageSizes)).flatten
      let allFields := collectFields (enumFiles 0 doc.files)
      Except.ok
        { pages :=
            (success.map (fun p =>
              (List.range p.2.pageSizes.length).map (fun k => (p.1, k + 1)))).flatten
          pageSizes := sizes
          draws := compositeAll embed pageMap sizes allFields signers }

/-- `mergeDocumentsWithFields` with its catch-all wrapper (src/pdfService.js
    lines 1084-1087). -/
def mergeDocumentsWithFields (embed : String → Option Unit) (doc : DocumentData)
    (signers : List Signer) : Except String MergeOut :=
  match mergeCore embed doc signers with
  | Except.error e => Except.error ("Failed to merge documents with fields: " ++ e)
  | Except.ok out => Except.ok out

/-- `generateCompletedDocument` (src/pdfService.js lines 1096-1114): filter
    signers to the signed ones, fail when none remain, merge with the signed
    signers only, and return the result with the title-derived filename; the
    catch wraps any error message. -/
def generateCompletedDocument (embed : String → Option Unit) (doc : DocumentData)
    (signers : List Signer) : Except String (MergeOut × String) :=
  let core : Except String (MergeOut × String) :=
    (let signedSigners := signers.filter (fun s => s.signed)
     if signedSigners.length = 0 then
       Except.error "No signed data available for PDF generation"
     else
       match mergeDocumentsWithFields embed doc signedSigners with
       | Except.error e => Except.error e
       | Except.ok out =>
         let documentTitle := jsOrElse doc.title (jsOrElse doc.originalName "completed-document")
         Except.ok (out, documentTitle ++ "-signed.pdf"))
  match core with
  | Except.error e => Except.error ("Failed to generate completed document: " ++ e)
  | Except.ok r => Except.ok r

/-- The page sizing rule of `imageToPDF` (src/pdfService.js lines 466-479):
    native pixel dimensions as page points, scaled down uniformly when either
    dimension exceeds the A4 bound of 595 by 842 points. -/
def imageToPDFPageSize (width height : ℚ) : ℚ × ℚ :=
  if width > 595 ∨ height > 842 then
    let scale := min (595 / width) (842 / height)
    (width * scale, height * scale)
  else (width, height)

/-- The drawImage call of `imageToPDF` (src/pdfService.js lines 481-487):
    the image is drawn at the origin filling the whole computed page. -/
def imageToPDFDraw (width height : ℚ) : DrawOp :=
  DrawOp.image 0 0 (imageToPDFPageSize width height).1 (imageToPDFPageSize width height).2

/-- Claim C8: the image page equals the native size when it fits the 595 by
    842 bound, and otherwise both dimensions are scaled by the uniform factor
    min of 595 over w and 842 over h; the result never exceeds the bound,
    preserves the aspect ratio, never scales up, and the image is drawn at
    the origin filling the computed page. -/
theorem imageToPDF_pageSize_spec (w h : ℚ) (hw : 0 < w) (hh : 0 < h) :
    ((w ≤ 595 ∧ h ≤ 842) → imageToPDFPageSize w h = (w, h)) ∧
    ((595 < w ∨ 842 < h) →
      imageToPDFPageSize w h =
        (w * min (595 / w) (842 / h), h * min (595 / w) (842 / h))) ∧
    (imageToPDFPageSize w h).1 ≤ 595 ∧
    (imageToPDFPageSize w h).2 ≤ 842 ∧
    (imageToPDFPageSize w h).1 * h = (imageToPDFPageSize w h).2 * w ∧
    (imageToPDFPageSize w h).1 ≤ w ∧
    (imageToPDFPageSize w h).2 ≤ h ∧
    imageToPDFDraw w h =
      DrawOp.image 0 0 (imageToPDFPageSize w h).1 (imageToPDFPageSize w h).2 := by
  by_cases hc : (595 : ℚ) < w ∨ 842 < h
  · have hs1 : min ((595 : ℚ) / w) (842 / h) ≤ 595 / w := min_le_left _ _
    have hs2 : min ((595 : ℚ) / w) (842 / h) ≤ 842 / h := min_le_right _ _
    have hwe : w * (595 / w) = 595 := by field_simp
    have hhe : h * (842 / h) = 842 := by field_simp
    have hone : min ((595 : ℚ) / w) (842 / h) ≤ 1 := by
      rcases hc with h1 | h1
      · exact le_trans hs1 (le_of_lt ((div_lt_one hw).mpr h1))
      · exact le_trans hs2 (le_of_lt ((div_lt_one hh).mpr h1))
    have heq : imageToPDFPageSize w h =
        (w * min (595 / w) (842 / h), h * min (595 / w) (842 / h)) := by
      unfold imageToPDFPageSize
      rw [if_pos hc]
    refine ⟨?_, fun _ => heq, ?_, ?_, ?_, ?_, ?_, rfl⟩
    · rintro ⟨h1, h2⟩
      rcases hc with h3 | h3 <;> linarith
    · rw [heq]
      show w * min ((595 : ℚ) / w) (842 / h) ≤ 595
      calc w * min ((595 : ℚ) / w) (842 / h) ≤ w * (595 / w) :=
            mul_le_mul_of_nonneg_left hs1 hw.le
        _ = 595 := hwe
    · rw [heq]
      show h * min ((595 : ℚ) / w) (842 / h) ≤ 842
      calc h * min ((595 : ℚ) / w) (842 / h) ≤ h * (842 / h) :=
            mul_le_mul_of_nonneg_left hs2 hh.le
        _ = 842 := hhe
    · rw [heq]
      show w * min ((595 : ℚ) / w) (842 / h) * h = h * min ((595 : ℚ) / w) (842 / h) * w
      ring
    · rw [heq]
      exact mul_le_of_le_one_right hw.le hone
    · rw [heq]
      exact mul_le_of_le_one_right hh.le hone
  · push_neg at hc
    have heq : imageToPDFPageSize w h = (w, h) := by
      unfold imageToPDFPageSize
      rw [if_neg]
      push_neg
      exact hc
    refine ⟨fun _ => heq, ?_, ?_, ?_, ?_, ?_, ?_, rfl⟩
    · rintro (h1 | h1)
      · exact absurd h1 (not_lt.mpr hc.1)
      · exact absurd h1 (not_lt.mpr hc.2)
    · rw [heq]; exact hc.1
    · rw [heq]; exact hc.2
    · rw [heq]; show w * h = h * w; ring
    · rw [heq]
    · rw [heq]

/-- Witness for C8 at a 1200 by 800 pixel image: the oversize branch fires
    and the resulting width obeys the bound. -/
theorem imageToPDF_pageSize_spec_witness :
    imageToPDFPageSize 1200 800 =
      (1200 * min (595 / 1200) (842 / 800), 800 * min (595 / 1200) (842 / 800)) ∧
    (imageToPDFPageSize 1200 800).1 ≤ 595 ∧
    (imageToPDFPageSize 1200 800).2 ≤ 800 :=
  have hm := imageToPDF_pageSize_spec 1200 800 (by norm_num) (by norm_num)
  ⟨hm.2.1 (Or.inl (by norm_num)), hm.2.2.1, hm.2.2.2.2.2.2.1⟩

/-- Claim C7: generateCompletedDocument fails with the no-signed-data error
    when no signer has signed; when the filtered set is nonempty and the
    merge succeeds it returns the merged output paired with the filename
    title-signed.pdf, title defaulting from the document title to the
    original filename; and the whole result depends only on the signed
    signers (composition with the unsigned signers removed is identical). -/
theorem generateCompletedDocument_spec (embed : String → Option Unit)
    (doc : DocumentData) (signers : List Signer) :
    (signers.filter (fun s => s.signed) = [] →
      generateCompletedDocument embed doc signers =
        Except.error
          "Failed to generate completed document: No signed data available for PDF generation") ∧
    (∀ out, signers.filter (fun s => s.signed) ≠ [] →
      mergeDocumentsWithFields embed doc (signers.filter (fun s => s.signed)) =
        Except.ok out →
      generateCompletedDocument embed doc signers =
        Except.ok (out,
          jsOrElse doc.title (jsOrElse doc.originalName "completed-document") ++
            "-signed.pdf")) ∧
    generateCompletedDocument embed doc signers =
      generateCompletedDocument embed doc (signers.filter (fun s => s.signed)) := by
  refine ⟨?_, ?_, ?_⟩
  · intro h
    simp [generateCompletedDocument, h]
  · intro out hne hok
    have hlen : (signers.filter (fun s => s.signed)).length ≠ 0 := by
      simpa [List.length_eq_zero] using hne
    simp [generateCompletedDocument, hlen, hok]
  · by_cases h : (signers.filter (fun s => s.signed)).length = 0
    · simp [generateCompletedDocument, h, List.filter_filter]
    · simp [generateCompletedDocument, h, List.filter_filter]

/-- Concrete single-file document for the C7 witness. -/
def c7File : SrcFile :=
  { fileName := "contract.pdf", download := some [0x25, 0x50, 0x44, 0x46],
    loadOk := true, pageSizes := [(600, 800)], fields := [] }

/-- Concrete document for the C7 witness. -/
def c7Doc : DocumentData :=
  { title := some "Contract", originalName := some "orig.pdf", files := [c7File] }

/-- Concrete signed signer for the C7 witness. -/
def c7Signer : Signer :=
  { email := "a@b.example", signed := true, fieldValues := [] }

/-- Expected merge output for the C7 witness. -/
def c7Out : MergeOut :=
  { pages := [(0, 1)], pageSizes := [(600, 800)], draws := [] }

/-- Witness for C7: on a one-file document with one signed signer the
    orchestrator returns the merged output and the title-derived filename. -/
theorem generateCompletedDocument_spec_witness :
    generateCompletedDocument (fun _ => none) c7Doc [c7Signer] =
      Except.ok (c7Out,
        jsOrElse c7Doc.title (jsOrElse c7Doc.originalName "completed-document") ++
          "-signed.pdf") ∧
    jsOrElse c7Doc.title (jsOrElse c7Doc.originalName "completed-document") ++
        "-signed.pdf" = "Contract-signed.pdf" := by
  have hfil : [c7Signer].filter (fun s => s.signed) = [c7Signer] := by decide
  have hkeep : analyzeKeep c7File = true := by decide
  have hfiles : c7Doc.files = [c7File] := rfl
  have hload : c7File.loadOk = true := rfl
  have hps : c7File.pageSizes = [(600, 800)] := rfl
  have hflds : c7File.fields = [] := rfl
  have hsigned : c7Signer.signed = true := rfl
  have hmerge : mergeDocumentsWithFields (fun _ => none) c7Doc [c7Signer] =
      Except.ok c7Out := by
    simp [mergeDocumentsWithFields, mergeCore, enumFiles, collectFields, compositeAll,
      compositeSigner, compositeFields, hfiles, hkeep, hload, hps, hflds, hsigned, c7Out,
      List.range_succ, List.range_zero]
  refine ⟨?_, by decide⟩
  exact (generateCompletedDocument_spec (fun _ => none) c7Doc [c7Signer]).2.1 c7Out
    (by rw [hfil]; decide) (by rw [hfil]; exact hmerge)

/-- A text field anchored to the first (failing) file of the C3 document. -/
def c3Field : Field :=
  { id := "f1", type := "text", pageNumber := some 1, pos := FieldPos.percent 0 0 10 10 }

/-- A file whose bytes match no supported signature (skipped in stage 1),
    carrying one field. -/
def c3FailFile : SrcFile :=
  { fileName := "broken.bin", download := some [0, 1, 2, 3, 4],
    loadOk := true, pageSizes := [], fields := [c3Field] }

/-- A valid one-page PDF file after the failing one. -/
def c3GoodFile : SrcFile :=
  { fileName := "good.pdf", download := some [0x25, 0x50, 0x44, 0x46],
    loadOk := true, pageSizes := [(600, 800)], fields := [] }

/-- The C3 document: the unrecognized file first, the good PDF second. -/
def c3Doc : DocumentData :=
  { title := some "Demo", originalName := none, files := [c3FailFile, c3GoodFile] }

/-- A signed signer with a value for the field of the failed file. -/
def c3Signer : Signer :=
  { email := "c@d.example", signed := true, fieldValues := [("f1", JSValue.str "John")] }

/-- Claim C3 evidence: with an unrecognized first file and a good second
    file, the merge succeeds and the output is exactly the pages of the good
    file, but the field anchored to the failed file (original file index 0)
    is NOT dropped: the page map, keyed by position among the successfully
    processed files, resolves (0, 1) to global page 0 — the good file's
    page — and a draw call is produced for it there. -/
theorem merge_draws_field_of_failed_file :
    mergeDocumentsWithFields (fun _ => none) c3Doc [c3Signer] =
      Except.ok
        { pages := [(1, 1)], pageSizes := [(600, 800)],
          draws := [(0, DrawOp.text "John" 2 753 14 (some 56))] } := by
  have h1 : analyzeKeep c3FailFile = false := by decide
  have h2 : analyzeKeep c3GoodFile = true := by decide
  have hfiles : c3Doc.files = [c3FailFile, c3GoodFile] := rfl
  have hload : c3GoodFile.loadOk = true := rfl
  have hps : c3GoodFile.pageSizes = [(600, 800)] := rfl
  have hflds0 : c3FailFile.fields = [c3Field] := rfl
  have hflds1 : c3GoodFile.fields = [] := rfl
  have hsigned : c3Signer.signed = true := rfl
  have hid : c3Field.id = "f1" := rfl
  have htype : c3Field.type = "text" := rfl
  have hpage : c3Field.pageNumber = some 1 := rfl
  have hpos : c3Field.pos = FieldPos.percent 0 0 10 10 := rfl
  have hlook : lookupValue c3Signer.fieldValues "f1" = JSValue.str "John" := by decide
  have hmap : filePageToGlobalPage [1] 0 1 = some 0 := by decide
  have hres : resolveBox (FieldPos.percent 0 0 10 10) 600 800 =
      some (Box.mk 0 720 60 80) := by
    norm_num [resolveBox, percentBox, clampIfOut]
  have hrender : renderFieldValue (fun _ => none) "text" (JSValue.str "John")
      (Box.mk 0 720 60 80) = some (DrawOp.text "John" 2 753 14 (some 56)) := by
    norm_num [renderFieldValue, renderTextDraw, jsToString, min_def, max_def]
  simp [mergeDocumentsWithFields, mergeCore, enumFiles, collectFields, compositeAll,
    compositeSigner, compositeFields, jsOrNat, jsTruthy,
    hfiles, h1, h2, hload, hps, hflds0, hflds1, hsigned, hid, htype, hpage, hpos,
    hlook, hmap, hres, hrender, List.range_succ, List.range_zero]

end SignBe
